import Mathlib

/-!
# Verification of the explainable-book-recs vector fusion and ranking engine

A shallow embedding of the core of the `explainable-book-recs` repository:
the logic that turns a text query and/or a seed book into a single query
vector, retrieves nearest-neighbor candidates, and produces a ranked,
deduplicated result list, together with the embeddings-table state model
induced by the SQL migrations and the frontend request handlers.

The repository ships the SQL DDL (`backend/app/migrations/*.sql`), the
Next.js frontend request handlers, and the README; the Python retrieval
engine itself is not part of the source tree, so those operations are
modelled directly from the specification (each such definition carries a
doc comment starting with `Modelled from the spec:`).  Float32 arithmetic
of the embedding vectors is idealized as real arithmetic; the ranking
pipeline works over exact rationals.
-/

namespace BookRecs

/-- Modelled from the spec: the error taxonomy of section 7
(`InvalidQuery`, `UnknownSeed`, `SeedNotFound`, `RetrievalUnavailable`,
`Timeout`); the backend that raises these is not under `src/`. -/
inductive Err where
  | InvalidQuery
  | UnknownSeed
  | SeedNotFound
  | RetrievalUnavailable
  | Timeout
deriving DecidableEq, Repr

/-! ## Fusion Combiner over idealized reals

The embedding dimension is `D = 384` (`VECTOR(384)` in the migrations,
`all-MiniLM-L6-v2` per the README).  Vectors are functions `Fin D → ℝ`.
-/

/-- Embedding dimension: `VECTOR(384)` in both migrations. -/
abbrev D : Nat := 384

/-- A dense embedding vector of dimension `D`; float32 entries idealized as reals. -/
abbrev Vec : Type := Fin D → ℝ

/-- Fusion weights `{w_text, w_seed}` (spec section 3). -/
structure FusionWeights where
  w_text : ℝ
  w_seed : ℝ

/-- Sum of squares of the entries of `v`. -/
def sumSq (v : Vec) : ℝ := ∑ i, v i ^ 2

/-- Euclidean norm of `v`. -/
noncomputable def vnorm (v : Vec) : ℝ := Real.sqrt (sumSq v)

/-- Scale `v` to unit length (on the zero vector division by zero yields `0`). -/
noncomputable def normalize (v : Vec) : Vec := fun i => v i / vnorm v

/-- Modelled from the spec: the Fusion Combiner (section 4.3); the backend
implementation is not under `src/`.  Each input vector is first normalized
to unit length, then the element-wise weighted sum
`w_text * v_text[i] + w_seed * v_seed[i]` is returned; the fused vector is
not re-normalized. -/
noncomputable def fuse (v_text v_seed : Vec) (w : FusionWeights) : Vec :=
  fun i => w.w_text * normalize v_text i + w.w_seed * normalize v_seed i

/-- Standard basis vector `e j`. -/
def basis (j : Fin D) : Vec := fun i => if i = j then 1 else 0

lemma sumSq_basis (j : Fin D) : sumSq (basis j) = 1 := by
  have h : ∀ i : Fin D, (basis j) i ^ 2 = if i = j then (1 : ℝ) else 0 := by
    intro i
    by_cases hij : i = j <;> simp [basis, hij]
  unfold sumSq
  rw [Finset.sum_congr rfl fun i _ => h i,
    Finset.sum_ite_eq' Finset.univ j fun _ => (1 : ℝ)]
  simp

lemma vnorm_basis (j : Fin D) : vnorm (basis j) = 1 := by
  rw [vnorm, sumSq_basis, Real.sqrt_one]

lemma normalize_of_vnorm_one {v : Vec} (h : vnorm v = 1) : normalize v = v := by
  funext i
  simp [normalize, h]

lemma sumSq_halfMix :
    sumSq (fun i => (1 / 2 : ℝ) * basis 0 i + (1 / 2 : ℝ) * basis 1 i) = 1 / 2 := by
  have h : ∀ i : Fin D,
      ((1 / 2 : ℝ) * basis 0 i + (1 / 2 : ℝ) * basis 1 i) ^ 2
        = (if i = (0 : Fin D) then (1 / 4 : ℝ) else 0)
          + (if i = (1 : Fin D) then (1 / 4 : ℝ) else 0) := by
    intro i
    by_cases h0 : i = (0 : Fin D)
    · have h1 : ¬ i = (1 : Fin D) := by
        subst h0; decide
      simp [basis, h0, h1]
      norm_num
    · by_cases h1 : i = (1 : Fin D)
      · simp [basis, h0, h1]
        norm_num
      · simp [basis, h0, h1]
  unfold sumSq
  rw [Finset.sum_congr rfl fun i _ => h i, Finset.sum_add_distrib,
    Finset.sum_ite_eq' Finset.univ (0 : Fin D) fun _ => (1 / 4 : ℝ),
    Finset.sum_ite_eq' Finset.univ (1 : Fin D) fun _ => (1 / 4 : ℝ)]
  norm_num

/-- Claim C1: for input vectors of length `D = 384` and weights with
`w_text + w_seed = 1`, the Fusion Combiner first normalizes each input to
unit length (a no-op exactly when the input is already a unit vector), then
returns the element-wise weighted sum
`v_fused[i] = w_text * v_text[i] + w_seed * v_seed[i]` of the normalized
inputs, and does not re-normalize the fused vector: fusing the unit vectors
`e 0` and `e 1` with equal weights yields a vector of norm `√(1/2) ≠ 1`. -/
theorem fuse_is_weighted_sum_of_normalized (v_text v_seed : Vec) (w : FusionWeights)
    (hw : w.w_text + w.w_seed = 1) :
    (∀ i, fuse v_text v_seed w i
        = w.w_text * normalize v_text i + w.w_seed * normalize v_seed i)
    ∧ (∀ v : Vec, vnorm v = 1 → normalize v = v)
    ∧ vnorm (fuse (basis 0) (basis 1) ⟨1 / 2, 1 / 2⟩) ≠ 1 := by
  refine ⟨fun i => rfl, fun v hv => normalize_of_vnorm_one hv, ?_⟩
  have hfuse : fuse (basis 0) (basis 1) ⟨1 / 2, 1 / 2⟩
      = fun i => (1 / 2 : ℝ) * basis 0 i + (1 / 2 : ℝ) * basis 1 i := by
    funext i
    simp only [fuse, normalize_of_vnorm_one (vnorm_basis 0),
      normalize_of_vnorm_one (vnorm_basis 1)]
  rw [hfuse, vnorm, sumSq_halfMix]
  intro hone
  have : (1 / 2 : ℝ) = 1 := Real.sqrt_eq_one.mp hone
  norm_num at this

/-- Witness for C1 at `v_text = e 0`, `v_seed = e 1`, `w = {1/2, 1/2}`. -/
theorem fuse_is_weighted_sum_of_normalized_witness :
    (1 / 2 : ℝ) + 1 / 2 = 1 ∧
    ((∀ i, fuse (basis 0) (basis 1) ⟨1 / 2, 1 / 2⟩ i
        = (1 / 2 : ℝ) * normalize (basis 0) i + (1 / 2 : ℝ) * normalize (basis 1) i)
      ∧ (∀ v : Vec, vnorm v = 1 → normalize v = v)
      ∧ vnorm (fuse (basis 0) (basis 1) ⟨1 / 2, 1 / 2⟩) ≠ 1) :=
  ⟨by norm_num,
    fuse_is_weighted_sum_of_normalized (basis 0) (basis 1) ⟨1 / 2, 1 / 2⟩ (by norm_num)⟩

/-- Claim C6: the Fusion Combiner is symmetric — simultaneously swapping the
two input vectors and their weights yields the identical fused vector. -/
theorem fuse_swap_symm (v_text v_seed : Vec) (w : FusionWeights) :
    fuse v_text v_seed w = fuse v_seed v_text ⟨w.w_seed, w.w_text⟩ := by
  funext i
  simp only [fuse]
  ring

/-! ## Ranking pipeline over exact rationals

The retrieval pipeline never computes square roots itself: distances come
back from the (injected) nearest-neighbor index, so the pipeline is stated
over exact rationals and stays fully executable.
-/

/-- A retrieval candidate (spec section 3): entity id, cosine distance, and
catalog metadata joined from the external catalog store. -/
structure Candidate where
  entity_id : Nat
  distance : ℚ
  title : String
  author : Option String
  published_year : Option Int
  subtitle : Option String
deriving DecidableEq, Repr

/-- Per-result scoring channels (spec section 3). -/
structure Channels where
  semantic : Option ℚ
  cf : Option ℚ
deriving DecidableEq, Repr

/-- The final user-facing result shape (spec section 3). -/
structure RankedResult where
  entity_id : Nat
  title : String
  author : Option String
  published_year : Option Int
  subtitle : Option String
  score : ℚ
  channels : Channels
  reason : String
deriving DecidableEq, Repr

/-- Modelled from the spec: the injected collaborators of sections 2, 4.1 and 9
(the backend engine is not under `src/`).  `books` is the catalog id set,
`embeddings` the per-book stored vectors, `embed` the black-box text-embedding
model, `combine` the numeric backend's vector blend (section 9 treats the
numeric backend as substitutable), `ann` the black-box approximate
nearest-neighbor index, `cfScore` the optional externally-supplied
collaborative-filtering channel, and `indexAvailable` the index health used
for `RetrievalUnavailable`. -/
structure Env (V : Type) where
  books : List Nat
  embeddings : List (Nat × V)
  embed : String → V
  combine : V → V → V
  ann : V → Nat → List Candidate
  cfScore : Nat → Option ℚ
  indexAvailable : Bool

/-- ASCII whitespace characters removed by trimming. -/
def isSpace (c : Char) : Bool := c == ' ' || c == '\t' || c == '\n' || c == '\r'

/-- Drop leading and trailing whitespace from a character list. -/
def trimChars (l : List Char) : List Char :=
  ((l.dropWhile isSpace).reverse.dropWhile isSpace).reverse

/-- Trimming of a string, modelled structurally on its character list. -/
def strim (s : String) : String := ⟨trimChars s.data⟩

/-- Modelled from the spec: text is trimmed and empty-after-trim text is
treated as absent (section 4.2). -/
def normText : Option String → Option String
  | none => none
  | some s => if strim s = "" then none else some (strim s)

/-- Stored embedding of a book, if any. -/
def lookupEmbedding {V : Type} (env : Env V) (id : Nat) : Option V :=
  (env.embeddings.find? fun p => decide (p.1 = id)).map Prod.snd

/-- Modelled from the spec: the small candidate buffer of section 4.4. -/
def buffer : Nat := 5

/-- Modelled from the spec: the requested result count is bounded to
`[1, 100]` (section 4.4). -/
def clampK (k : Nat) : Nat := max 1 (min k 100)

/-- Modelled from the spec: the Similarity Retriever (section 4.4).  Queries
the index for `k + buffer` candidates, filters out `exclude`, truncates to
`k`; fails with `RetrievalUnavailable` when the index is unavailable. -/
def retrieve {V : Type} (env : Env V) (q : V) (k : Nat) :
    Option Nat → Except Err (List Candidate)
  | some ex =>
    if env.indexAvailable then
      .ok ((((env.ann q (clampK k + buffer)).filter
        fun c => decide (c.entity_id ≠ ex))).take (clampK k))
    else .error .RetrievalUnavailable
  | none =>
    if env.indexAvailable then
      .ok ((env.ann q (clampK k + buffer)).take (clampK k))
    else .error .RetrievalUnavailable

/-- The occurrence with the smallest distance among `c :: l`
(the first one wins ties, matching a left fold). -/
def minBy (c : Candidate) (l : List Candidate) : Candidate :=
  l.foldl (fun u v => if v.distance < u.distance then v else u) c

/-- Modelled from the spec: deduplicate by `entity_id`, keeping the occurrence
with the smallest distance (section 4.5 step 1); `seen` holds the ids already
emitted. -/
def dedupeAux (seen : List Nat) : List Candidate → List Candidate
  | [] => []
  | c :: rest =>
    if c.entity_id ∈ seen then dedupeAux seen rest
    else
      minBy c (rest.filter fun d => decide (d.entity_id = c.entity_id))
        :: dedupeAux (c.entity_id :: seen) rest

/-- Modelled from the spec: step 1 of the Ranking & Explanation Assembler. -/
def dedupe (l : List Candidate) : List Candidate := dedupeAux [] l

lemma minBy_mem (c : Candidate) (l : List Candidate) : minBy c l ∈ c :: l := by
  unfold minBy
  induction l generalizing c with
  | nil => simp
  | cons x xs ih =>
    have h := ih (if x.distance < c.distance then x else c)
    simp only [List.foldl_cons]
    rcases List.mem_cons.mp h with h1 | h2
    · rw [h1]
      split
      · exact List.mem_cons_of_mem _ (List.mem_cons_self _ _)
      · exact List.mem_cons_self _ _
    · exact List.mem_cons_of_mem _ (List.mem_cons_of_mem _ h2)

lemma dedupeAux_subset (seen : List Nat) (l : List Candidate) :
    ∀ c ∈ dedupeAux seen l, c ∈ l := by
  induction l generalizing seen with
  | nil => simp [dedupeAux]
  | cons x rest ih =>
    intro c hc
    simp only [dedupeAux] at hc
    by_cases hmem : x.entity_id ∈ seen
    · rw [if_pos hmem] at hc
      exact List.mem_cons_of_mem _ (ih seen c hc)
    · rw [if_neg hmem] at hc
      rcases List.mem_cons.mp hc with h1 | h2
      · rw [h1]
        have hm := minBy_mem x (rest.filter fun d => decide (d.entity_id = x.entity_id))
        rcases List.mem_cons.mp hm with he | hf
        · rw [he]; exact List.mem_cons_self _ _
        · exact List.mem_cons_of_mem _ (List.mem_of_mem_filter hf)
      · exact List.mem_cons_of_mem _ (ih _ c h2)

lemma dedupe_subset (l : List Candidate) : ∀ c ∈ dedupe l, c ∈ l :=
  dedupeAux_subset [] l

/-- Modelled from the spec: steps 2, 3 and 7 of the Ranking & Explanation
Assembler (section 4.5): `score = 1 - distance`, the semantic channel is
always recorded, the optional cf channel is recorded but carries zero blend
weight (so the combined score is the semantic score alone), and the
templated rationale is attached. -/
def toRanked (cf : Nat → Option ℚ) (why : String) (c : Candidate) : RankedResult :=
  { entity_id := c.entity_id
    title := c.title
    author := c.author
    published_year := c.published_year
    subtitle := c.subtitle
    score := 1 - c.distance
    channels := { semantic := some (1 - c.distance), cf := cf c.entity_id }
    reason := why }

/-- Modelled from the spec: the final ordering — descending combined score,
ties broken by ascending `entity_id` (section 4.5 step 5).  `rankLE a b`
means `a` may appear before `b`. -/
def rankLE (a b : RankedResult) : Prop :=
  b.score < a.score ∨ (a.score = b.score ∧ a.entity_id ≤ b.entity_id)

instance : DecidableRel rankLE := fun a b => by
  unfold rankLE
  infer_instance

instance : IsTotal RankedResult rankLE := ⟨by
  intro a b
  rcases lt_trichotomy a.score b.score with h | h | h
  · exact Or.inr (Or.inl h)
  · rcases Nat.le_total a.entity_id b.entity_id with hle | hle
    · exact Or.inl (Or.inr ⟨h, hle⟩)
    · exact Or.inr (Or.inr ⟨h.symm, hle⟩)
  · exact Or.inl (Or.inl h)⟩

instance : IsTrans RankedResult rankLE := ⟨by
  intro a b c hab hbc
  rcases hab with h1 | ⟨h1, h1'⟩
  · rcases hbc with h2 | ⟨h2, _⟩
    · exact Or.inl (h2.trans h1)
    · exact Or.inl (h2 ▸ h1)
  · rcases hbc with h2 | ⟨h2, h2'⟩
    · exact Or.inl (by rw [h1]; exact h2)
    · exact Or.inr ⟨h1.trans h2, h1'.trans h2'⟩⟩

/-- Modelled from the spec: the Ranking & Explanation Assembler
(section 4.5): deduplicate, convert scores, record channels, sort by the
rank order, truncate to `k`, attach the rationale. -/
def assemble (cf : Nat → Option ℚ) (why : String) (k : Nat)
    (cands : List Candidate) : List RankedResult :=
  (List.insertionSort rankLE ((dedupe cands).map (toRanked cf why))).take (clampK k)

/-- Modelled from the spec: templated rationale for a text-only query
(section 4.5 step 7). -/
def reasonText (t : String) : String := "Matches your description: " ++ t

/-- Modelled from the spec: templated rationale for a seed-only query
(section 4.5 step 7). -/
def reasonSeed : String := "Thematically and stylistically close to your seed book"

/-- Modelled from the spec: templated rationale when both signals are used
(section 4.5 step 7). -/
def reasonBoth (t : String) : String :=
  "Sits between your description (" ++ t ++ ") and your seed book"

/-- Modelled from the spec: `search_semantic` (section 6): text required and
non-empty after trim, else `InvalidQuery`; embed the text, retrieve, rank. -/
def search_semantic {V : Type} (env : Env V) (text : String) (k : Nat) :
    Except Err (List RankedResult) :=
  match normText (some text) with
  | none => .error .InvalidQuery
  | some t =>
    match retrieve env (env.embed t) k none with
    | .error e => .error e
    | .ok cands => .ok (assemble env.cfScore (reasonText t) k cands)

/-- Modelled from the spec: `similar` (sections 4.2 and 6): the seed must
exist in the catalog (`UnknownSeed` otherwise) and have a stored embedding
(`SeedNotFound` otherwise); the seed id is excluded from the results. -/
def similar {V : Type} (env : Env V) (book_id : Nat) (k : Nat) :
    Except Err (List RankedResult) :=
  if book_id ∈ env.books then
    match lookupEmbedding env book_id with
    | none => .error .SeedNotFound
    | some v =>
      match retrieve env v k (some book_id) with
      | .error e => .error e
      | .ok cands => .ok (assemble env.cfScore reasonSeed k cands)
  else .error .UnknownSeed

/-- Modelled from the spec: `recommend` (sections 4.2 and 6): at least one of
text (non-empty after trim) and seed is required, else `InvalidQuery`; with
both present the text and seed vectors are blended by the combiner and the
seed is excluded from the results. -/
def recommend {V : Type} (env : Env V) (text : Option String) (seed : Option Nat)
    (k : Nat) : Except Err (List RankedResult) :=
  match normText text, seed with
  | none, none => .error .InvalidQuery
  | some t, none =>
    match retrieve env (env.embed t) k none with
    | .error e => .error e
    | .ok cands => .ok (assemble env.cfScore (reasonText t) k cands)
  | none, some id =>
    if id ∈ env.books then
      match lookupEmbedding env id with
      | none => .error .SeedNotFound
      | some v =>
        match retrieve env v k (some id) with
        | .error e => .error e
        | .ok cands => .ok (assemble env.cfScore reasonSeed k cands)
    else .error .UnknownSeed
  | some t, some id =>
    if id ∈ env.books then
      match lookupEmbedding env id with
      | none => .error .SeedNotFound
      | some v =>
        match retrieve env (env.combine (env.embed t) v) k (some id) with
        | .error e => .error e
        | .ok cands => .ok (assemble env.cfScore (reasonBoth t) k cands)
    else .error .UnknownSeed

/-! ## Concrete demonstration environment -/

/-- Candidates returned by the demonstration index. -/
def demoCands : List Candidate :=
  [{ entity_id := 1, distance := 1/2, title := "A", author := none,
     published_year := none, subtitle := none },
   { entity_id := 2, distance := 1/4, title := "B", author := none,
     published_year := none, subtitle := none },
   { entity_id := 3, distance := 1/2, title := "C", author := none,
     published_year := none, subtitle := none }]

/-- A small concrete environment: four catalog books, one stored embedding,
a constant index. -/
def demoEnv : Env (List ℚ) :=
  { books := [1, 2, 3, 7]
    embeddings := [(1, [1, 0])]
    embed := fun _ => [1, 0]
    combine := fun a _ => a
    ann := fun _ _ => demoCands
    cfScore := fun _ => none
    indexAvailable := true }

/-- Expected `search_semantic demoEnv "war" 2` output. -/
def demoSearchOut : List RankedResult :=
  [{ entity_id := 2, title := "B", author := none, published_year := none,
     subtitle := none, score := 3/4,
     channels := { semantic := some (3/4), cf := none },
     reason := "Matches your description: war" },
   { entity_id := 1, title := "A", author := none, published_year := none,
     subtitle := none, score := 1/2,
     channels := { semantic := some (1/2), cf := none },
     reason := "Matches your description: war" }]

/-- Expected `similar demoEnv 1 2` output. -/
def demoSimilarOut : List RankedResult :=
  [{ entity_id := 2, title := "B", author := none, published_year := none,
     subtitle := none, score := 3/4,
     channels := { semantic := some (3/4), cf := none },
     reason := reasonSeed },
   { entity_id := 3, title := "C", author := none, published_year := none,
     subtitle := none, score := 1/2,
     channels := { semantic := some (1/2), cf := none },
     reason := reasonSeed }]

/-! ## Ranking properties (C2, C3) -/

lemma clampK_le {k : Nat} (hk : 1 ≤ k) : clampK k ≤ k :=
  max_le hk (min_le_left _ _)

lemma assemble_length_le (cf : Nat → Option ℚ) (why : String) (k : Nat)
    (cands : List Candidate) : (assemble cf why k cands).length ≤ clampK k := by
  unfold assemble
  exact List.length_take_le _ _

/-- Scores are non-increasing from first to last, and any two results with
equal score appear in ascending entity id order. -/
def ScoreSorted (rs : List RankedResult) : Prop :=
  rs.Pairwise fun a b => b.score ≤ a.score ∧ (a.score = b.score → a.entity_id ≤ b.entity_id)

lemma rankLE_implies {a b : RankedResult} (h : rankLE a b) :
    b.score ≤ a.score ∧ (a.score = b.score → a.entity_id ≤ b.entity_id) := by
  rcases h with h | ⟨he, hid⟩
  · exact ⟨le_of_lt h, fun heq => absurd (heq ▸ h) (lt_irrefl _)⟩
  · exact ⟨le_of_eq he.symm, fun _ => hid⟩

lemma scoreSorted_assemble (cf : Nat → Option ℚ) (why : String) (k : Nat)
    (cands : List Candidate) : ScoreSorted (assemble cf why k cands) := by
  have hs : List.Sorted rankLE
      (List.insertionSort rankLE ((dedupe cands).map (toRanked cf why))) :=
    List.sorted_insertionSort rankLE _
  have ht : List.Pairwise rankLE (assemble cf why k cands) :=
    List.Pairwise.sublist (List.take_sublist (clampK k) _) hs
  exact ht.imp fun h => rankLE_implies h

/-- Claim C2: for every valid text query and requested result count `k ≥ 1`,
`search_semantic` returns at most `k` results, with scores non-increasing from
first to last and equal-score ties in ascending entity id order. -/
theorem search_semantic_at_most_k_sorted {V : Type} (env : Env V) (t : String)
    (k : Nat) (rs : List RankedResult) (hk : 1 ≤ k)
    (h : search_semantic env t k = .ok rs) :
    rs.length ≤ k ∧ ScoreSorted rs := by
  unfold search_semantic at h
  split at h
  · exact absurd h (by simp)
  · split at h
    · exact absurd h (by simp)
    · obtain rfl : rs = _ := (Except.ok.inj h).symm
      exact ⟨(assemble_length_le _ _ _ _).trans (clampK_le hk),
        scoreSorted_assemble _ _ _ _⟩

unseal Rat.mul Rat.inv Rat.sub Rat.add in
/-- Witness for C2 on the demonstration environment. -/
theorem search_semantic_at_most_k_sorted_witness :
    1 ≤ 2 ∧ (demoSearchOut.length ≤ 2 ∧ ScoreSorted demoSearchOut) :=
  ⟨by decide,
    search_semantic_at_most_k_sorted demoEnv "war" 2 demoSearchOut (by decide) rfl⟩

lemma retrieve_ok_excludes {V : Type} (env : Env V) (q : V) (k : Nat) (ex : Nat)
    (cands : List Candidate) (h : retrieve env q k (some ex) = .ok cands) :
    ∀ c ∈ cands, c.entity_id ≠ ex := by
  simp only [retrieve] at h
  split at h
  · obtain rfl : cands = _ := (Except.ok.inj h).symm
    intro c hc
    have hcf := List.take_subset _ _ hc
    have hp := @List.of_mem_filter Candidate (fun d => decide (d.entity_id ≠ ex)) c
      (env.ann q (clampK k + buffer)) hcf
    exact of_decide_eq_true hp
  · exact absurd h (by simp)

lemma retrieve_ok_available {V : Type} (env : Env V) (q : V) (k : Nat)
    (ex : Option Nat) (cands : List Candidate)
    (h : retrieve env q k ex = .ok cands) : env.indexAvailable = true := by
  cases ex with
  | some e =>
    simp only [retrieve] at h
    split at h
    · assumption
    · exact absurd h (by simp)
  | none =>
    simp only [retrieve] at h
    split at h
    · assumption
    · exact absurd h (by simp)

/-- Claim C3: when `similar book_id` succeeds, the seed id never appears among
the returned entity ids (the seed is filtered out before truncating to `k`). -/
theorem similar_excludes_seed {V : Type} (env : Env V) (id k : Nat)
    (rs : List RankedResult) (h : similar env id k = .ok rs) :
    id ∉ rs.map RankedResult.entity_id := by
  unfold similar at h
  split at h
  · split at h
    · exact absurd h (by simp)
    · rename_i v hlook
      split at h
      · exact absurd h (by simp)
      · rename_i cands hret
        obtain rfl : rs = _ := (Except.ok.inj h).symm
        intro hmem
        rcases List.mem_map.mp hmem with ⟨r, hr, hid⟩
        unfold assemble at hr
        have h1 := List.take_subset _ _ hr
        have h2 := (List.mem_insertionSort rankLE).mp h1
        rcases List.mem_map.mp h2 with ⟨c, hcd, rfl⟩
        have h3 : c ∈ cands := dedupe_subset cands c hcd
        exact retrieve_ok_excludes env v k id cands hret c h3 hid
  · exact absurd h (by simp)

unseal Rat.mul Rat.inv Rat.sub Rat.add in
/-- Witness for C3 on the demonstration environment. -/
theorem similar_excludes_seed_witness :
    1 ∉ demoSimilarOut.map RankedResult.entity_id :=
  similar_excludes_seed demoEnv 1 2 demoSimilarOut rfl

/-! ## Error handling (C4, C5, C9) -/

/-- Claim C4: `recommend` with no seed and absent text — where text that is
empty after trimming counts as absent — fails with `InvalidQuery` and does not
return an empty result list. -/
theorem recommend_requires_input {V : Type} (env : Env V) (t : Option String)
    (k : Nat) (h : normText t = none) :
    recommend env t none k = .error .InvalidQuery ∧ recommend env t none k ≠ .ok [] := by
  have he : recommend env t none k = .error .InvalidQuery := by
    unfold recommend
    rw [h]
  exact ⟨he, by rw [he]; simp⟩

/-- Witness for C4 at whitespace-only text. -/
theorem recommend_requires_input_witness :
    normText (some "   ") = none ∧
    (recommend demoEnv (some "   ") none 12 = .error .InvalidQuery ∧
      recommend demoEnv (some "   ") none 12 ≠ .ok []) :=
  ⟨rfl, recommend_requires_input demoEnv (some "   ") 12 rfl⟩

/-- Claim C5: `similar` fails with `UnknownSeed` when the book id is absent
from the catalog, fails with `SeedNotFound` when the book exists but has no
stored embedding, and these two error outcomes are distinct. -/
theorem similar_distinguishes_seed_errors {V : Type} (env : Env V) (id k : Nat) :
    (id ∉ env.books → similar env id k = .error .UnknownSeed) ∧
    (id ∈ env.books → lookupEmbedding env id = none →
      similar env id k = .error .SeedNotFound) ∧
    Err.UnknownSeed ≠ Err.SeedNotFound := by
  refine ⟨fun hnb => ?_, fun hb hle => ?_, by decide⟩
  · unfold similar
    rw [if_neg hnb]
  · unfold similar
    rw [if_pos hb, hle]

/-- Witness for C5 on the demonstration environment: book 99 is not in the
catalog, book 7 is in the catalog but has no stored embedding. -/
theorem similar_distinguishes_seed_errors_witness :
    similar demoEnv 99 2 = .error .UnknownSeed ∧
    similar demoEnv 7 2 = .error .SeedNotFound :=
  ⟨(similar_distinguishes_seed_errors demoEnv 99 2).1 (by decide),
    (similar_distinguishes_seed_errors demoEnv 7 2).2.1 (by decide) rfl⟩

lemma strim_ne_of_normText_some {t t' : String} (h : normText (some t) = some t') :
    strim t ≠ "" := by
  intro he
  simp [normText, he] at h

/-- Claim C9: every error outcome is a distinct member of the taxonomy and is
reported as an error value, never converted into an empty (or any) `ok`
result list; an `ok` result — empty included — occurs only when the query was
valid and the index was reachable. -/
theorem errors_distinct_never_swallowed {V : Type} (env : Env V) (t : String)
    (ot : Option String) (s : Option Nat) (id k : Nat) :
    ([Err.InvalidQuery, Err.UnknownSeed, Err.SeedNotFound,
        Err.RetrievalUnavailable, Err.Timeout].Pairwise (· ≠ ·)) ∧
    (strim t = "" → search_semantic env t k = .error .InvalidQuery) ∧
    (env.indexAvailable = false → strim t ≠ "" →
      search_semantic env t k = .error .RetrievalUnavailable) ∧
    (∀ rs, search_semantic env t k = .ok rs →
      strim t ≠ "" ∧ env.indexAvailable = true) ∧
    (∀ rs, similar env id k = .ok rs →
      id ∈ env.books ∧ lookupEmbedding env id ≠ none ∧ env.indexAvailable = true) ∧
    (∀ rs, recommend env ot s k = .ok rs → ¬(normText ot = none ∧ s = none)) := by
  refine ⟨by decide, fun he => ?_, fun hia hne => ?_, fun rs h => ?_, fun rs h => ?_,
    fun rs h hand => ?_⟩
  · unfold search_semantic
    simp [normText, he]
  · unfold search_semantic
    simp only [normText, if_neg hne]
    unfold retrieve
    rw [hia]
    simp
  · unfold search_semantic at h
    split at h
    · exact absurd h (by simp)
    · rename_i t' hnt
      split at h
      · exact absurd h (by simp)
      · rename_i cands hret
        exact ⟨strim_ne_of_normText_some hnt, retrieve_ok_available env _ k none cands hret⟩
  · unfold similar at h
    split at h
    · rename_i hb
      split at h
      · exact absurd h (by simp)
      · rename_i v hlook
        split at h
        · exact absurd h (by simp)
        · rename_i cands hret
          exact ⟨hb, by rw [hlook]; simp,
            retrieve_ok_available env v k (some id) cands hret⟩
    · exact absurd h (by simp)
  · obtain ⟨h1, h2⟩ := hand
    subst h2
    unfold recommend at h
    rw [h1] at h
    exact absurd h (by simp)

unseal Rat.mul Rat.inv Rat.sub Rat.add in
/-- Witness for C9: an invalid query is reported as `InvalidQuery` (not an
empty list), and a successful search implies the query was valid and the
index reachable. -/
theorem errors_distinct_never_swallowed_witness :
    search_semantic demoEnv "" 5 = .error .InvalidQuery ∧
    (strim "war" ≠ "" ∧ demoEnv.indexAvailable = true) :=
  ⟨(errors_distinct_never_swallowed demoEnv "" none none 0 5).2.1 rfl,
    (errors_distinct_never_swallowed demoEnv "war" none none 0 2).2.2.2.1
      demoSearchOut rfl⟩

/-! ## Embeddings table state model (C7, C10)

From `backend/app/migrations/002_pgvector_embeddings.sql` and
`backend/app/migrations/20250928_add_pgvector_embeddings.sql`: the
`embeddings` table has `entity_type TEXT CHECK (entity_type IN ('book'))`,
`entity_id BIGINT`, `vector VECTOR(384) NOT NULL`,
`PRIMARY KEY (entity_type, entity_id)`, and the constraint
`fk_embeddings_book FOREIGN KEY (entity_id) REFERENCES books(id)`.
-/

/-- A row of the `embeddings` table. -/
structure EmbeddingRow where
  entity_type : String
  entity_id : Nat
  vector : List ℚ
deriving DecidableEq, Repr

/-- Constraint violations raised by the database. -/
inductive SqlError where
  | checkViolation
  | dimensionMismatch
  | fkViolation
  | uniqueViolation
deriving DecidableEq, Repr

/-- The primary key `(entity_type, entity_id)` of a row. -/
def rowKey (r : EmbeddingRow) : String × Nat := (r.entity_type, r.entity_id)

/-- The `embeddings` table invariant: at most one row per
`(entity_type, entity_id)` (primary key), `entity_type = 'book'` (CHECK
constraint), and every vector of length exactly `D = 384` (`VECTOR(384)`). -/
def StoreWF (s : List EmbeddingRow) : Prop :=
  (∀ r ∈ s, r.entity_type = "book" ∧ r.vector.length = D) ∧ (s.map rowKey).Nodup

/-- Modelled from the spec and the migrations: the overwrite-on-recompute
upsert of the offline embedding job (the job itself is not under `src/`; the
CHECK, dimension and primary-key behavior is the DDL's).  A row violating
the CHECK or the declared dimension is rejected; otherwise any previous row
with the same key is replaced. -/
def upsert (s : List EmbeddingRow) (r : EmbeddingRow) :
    Except SqlError (List EmbeddingRow) :=
  if r.entity_type ≠ "book" then .error .checkViolation
  else if r.vector.length ≠ D then .error .dimensionMismatch
  else .ok (r :: s.filter fun q => decide (rowKey q ≠ rowKey r))

/-- Claim C7: every well-formed embeddings state satisfies the table
invariant — one row per key, `entity_type = 'book'`, vectors of length 384 —
and every successful upsert preserves it. -/
theorem upsert_preserves_store_invariant (s : List EmbeddingRow)
    (r : EmbeddingRow) (s' : List EmbeddingRow) (hwf : StoreWF s)
    (h : upsert s r = .ok s') : StoreWF s' := by
  unfold upsert at h
  split at h
  · exact absurd h (by simp)
  · rename_i htype
    split at h
    · exact absurd h (by simp)
    · rename_i hdim
      obtain rfl : s' = _ := (Except.ok.inj h).symm
      constructor
      · intro x hx
        rcases List.mem_cons.mp hx with h1 | h2
        · rw [h1]
          exact ⟨not_not.mp htype, not_not.mp hdim⟩
        · exact hwf.1 x (List.mem_of_mem_filter h2)
      · rw [List.map_cons]
        refine List.nodup_cons.mpr ⟨?_, ?_⟩
        · intro hmem
          rcases List.mem_map.mp hmem with ⟨q, hq, hkey⟩
          have hne := of_decide_eq_true
            (@List.of_mem_filter EmbeddingRow
              (fun q => decide (rowKey q ≠ rowKey r)) q s hq)
          exact hne hkey
        · exact List.Nodup.sublist ((List.filter_sublist s).map rowKey) hwf.2

/-- A concrete well-formed row: a book embedding of dimension 384. -/
def demoRow : EmbeddingRow :=
  { entity_type := "book", entity_id := 1, vector := List.replicate D 0 }

set_option maxRecDepth 4000 in
/-- Witness for C7: upserting `demoRow` into the empty store yields a
well-formed store. -/
theorem upsert_preserves_store_invariant_witness :
    StoreWF [] ∧ StoreWF [demoRow] :=
  ⟨by simp [StoreWF],
    upsert_preserves_store_invariant [] demoRow [demoRow] (by simp [StoreWF]) rfl⟩

/-- The database state relevant to referential integrity: the catalog book
ids (`books.id`) and the `embeddings` rows. -/
structure Db where
  books : List Nat
  embeddings : List EmbeddingRow
deriving DecidableEq, Repr

/-- `fk_embeddings_book`: every embeddings row references an existing book. -/
def RefIntegrity (db : Db) : Prop :=
  ∀ r ∈ db.embeddings, r.entity_id ∈ db.books

/-- The operations that touch the two tables. -/
inductive DbOp where
  | insertBook (id : Nat)
  | deleteBook (id : Nat)
  | upsertEmbedding (r : EmbeddingRow)
deriving DecidableEq, Repr

/-- Modelled from the DDL (`fk_embeddings_book`, `books.id` primary key):
one database transition.  Inserting an embedding whose `entity_id` is not a
catalog book id violates the foreign key; deleting a book still referenced
by an embeddings row violates the foreign key (the constraint is deferrable
but checked by commit, and carries no `ON DELETE CASCADE`). -/
def applyOp (db : Db) : DbOp → Except SqlError Db
  | .insertBook id =>
    if id ∈ db.books then .error .uniqueViolation
    else .ok { books := id :: db.books, embeddings := db.embeddings }
  | .deleteBook id =>
    if db.embeddings.any fun r => decide (r.entity_id = id) then .error .fkViolation
    else .ok { books := db.books.filter fun b => decide (b ≠ id),
               embeddings := db.embeddings }
  | .upsertEmbedding r =>
    if r.entity_id ∈ db.books then
      match upsert db.embeddings r with
      | .error e => .error e
      | .ok s' => .ok { books := db.books, embeddings := s' }
    else .error .fkViolation

lemma upsert_ok_mem (s : List EmbeddingRow) (r0 : EmbeddingRow)
    (s' : List EmbeddingRow) (h : upsert s r0 = .ok s') :
    ∀ r ∈ s', r = r0 ∨ r ∈ s := by
  unfold upsert at h
  split at h
  · exact absurd h (by simp)
  · split at h
    · exact absurd h (by simp)
    · obtain rfl : s' = _ := (Except.ok.inj h).symm
      intro r hr
      rcases List.mem_cons.mp hr with h1 | h2
      · exact Or.inl h1
      · exact Or.inr (List.mem_of_mem_filter h2)

/-- Claim C10: every successful database transition preserves referential
integrity — a stored embedding always references an existing catalog book,
and no operation can create or leave an embedding for an absent book id. -/
theorem applyOp_preserves_ref_integrity (db : Db) (op : DbOp) (db' : Db)
    (hri : RefIntegrity db) (h : applyOp db op = .ok db') : RefIntegrity db' := by
  cases op with
  | insertBook id =>
    simp only [applyOp] at h
    split at h
    · exact absurd h (by simp)
    · obtain rfl : db' = _ := (Except.ok.inj h).symm
      intro r hr
      exact List.mem_cons_of_mem _ (hri r hr)
  | deleteBook id =>
    simp only [applyOp] at h
    split at h
    · exact absurd h (by simp)
    · rename_i hany
      obtain rfl : db' = _ := (Except.ok.inj h).symm
      intro r hr
      have hb := hri r hr
      have hne : r.entity_id ≠ id := by
        intro he
        exact hany (List.any_eq_true.mpr ⟨r, hr, by simp [he]⟩)
      exact List.mem_filter.mpr ⟨hb, by simp [hne]⟩
  | upsertEmbedding r0 =>
    simp only [applyOp] at h
    split at h
    · rename_i hfk
      split at h
      · exact absurd h (by simp)
      · rename_i s' hup
        obtain rfl : db' = _ := (Except.ok.inj h).symm
        intro r hr
        rcases upsert_ok_mem db.embeddings r0 s' hup r hr with h1 | h2
        · rw [h1]; exact hfk
        · exact hri r h2
    · exact absurd h (by simp)

set_option maxRecDepth 4000 in
/-- Witness for C10: upserting a book-1 embedding into a database whose
catalog holds book 1. -/
theorem applyOp_preserves_ref_integrity_witness :
    RefIntegrity { books := [1], embeddings := [demoRow] } :=
  applyOp_preserves_ref_integrity { books := [1], embeddings := [] }
    (.upsertEmbedding demoRow) { books := [1], embeddings := [demoRow] }
    (by simp [RefIntegrity]) rfl

/-! ## Frontend request handling (C8)

Modelled from `frontend/src/app/recs/page.tsx` (`run`, lines 101-130) and
`frontend/src/app/search/page.tsx` (`run`, lines 20-30).  A request is
modelled by the arrival time of its response (milliseconds after the fetch
was issued) and the reply itself; the handler produces the final UI state.
-/

/-- An HTTP reply as seen by the frontend handler: `res.ok` and the parsed
`data.results`. -/
structure HttpReply (α : Type) where
  ok : Bool
  results : List α
deriving DecidableEq, Repr

/-- Final UI state of one request after the handler's `finally` block. -/
structure UiState (α : Type) where
  results : Option (List α)
  error : Option String
  loading : Bool
deriving DecidableEq, Repr

/-- The recs page's request ceiling:
`setTimeout(() => ctrl.abort(), 12000)` in `recs/page.tsx`. -/
def recsTimeoutMs : Nat := 12000

/-- `run` of `recs/page.tsx`: the fetch races a 12000 ms abort timer.  An
aborted request reports the timeout message and leaves `results` unset; a
non-ok reply reports an HTTP error; otherwise `data.results` is stored. -/
def recsRun (α : Type) (arrival : Nat) (reply : HttpReply α) : UiState α :=
  if recsTimeoutMs ≤ arrival then
    { results := none, error := some "Request timed out. Please try again.",
      loading := false }
  else if reply.ok = false then
    { results := none, error := some "HTTP error", loading := false }
  else
    { results := some reply.results, error := none, loading := false }

/-- `run` of `search/page.tsx`: a plain `fetch` with no `AbortController`
and no timeout; whenever the response arrives, `data.results` is stored (the
page holds no error state at all), so the arrival time plays no role. -/
def searchRun (α : Type) (_arrival : Nat) (reply : HttpReply α) : UiState α :=
  { results := some reply.results, error := none, loading := false }

/-- Counterexample to C8 as stated: a semantic-search request whose response
arrives at 13000 ms — beyond the 12-second ceiling — is not cancelled and
still delivers its result list instead of reporting a `Timeout` condition;
the 12-second abort exists only in the recommendations page handler. -/
theorem search_request_not_bounded_by_timeout :
    recsTimeoutMs ≤ 13000 ∧
    searchRun Nat 13000 { ok := true, results := [42] }
      = { results := some [42], error := none, loading := false } :=
  ⟨by decide, rfl⟩

/-- Claim C8 (amended): recommend requests issued from the recommendations
page are bounded by the 12-second ceiling — when the ceiling is exceeded the
request is aborted and reported with the timeout message, `results` stays
unset (no partial or stale result set), and the handler performs no
automatic retry (its message asks the user to retry manually).  Semantic
search requests carry no such ceiling. -/
theorem recs_request_timeout_reported (α : Type) (arrival : Nat)
    (reply : HttpReply α) (h : recsTimeoutMs ≤ arrival) :
    recsRun α arrival reply
      = { results := none, error := some "Request timed out. Please try again.",
          loading := false } := by
  unfold recsRun
  rw [if_pos h]

/-- Witness for the amended C8 at `arrival = 12000`. -/
theorem recs_request_timeout_reported_witness :
    recsTimeoutMs ≤ 12000 ∧
    recsRun Nat 12000 { ok := true, results := [1] }
      = { results := none, error := some "Request timed out. Please try again.",
          loading := false } :=
  ⟨by decide,
    recs_request_timeout_reported Nat 12000 { ok := true, results := [1] } (by decide)⟩

end BookRecs
